import Mathlib

/-!
# Verification of the sdf-engine deferred path-tracing pipeline

A shallow embedding of `src/main.cpp` and `src/mesh.cpp` (vedavamadathil/sdf-engine),
with theorems settling the spec's claims about the frame orchestrator, the
environment-map handoff, the material packer, the camera orientation update,
the G-buffer stage and the model loader.

Conventions:
* float scalars are modelled as exact rationals (`ℚ`) where the claims are
  data-structural, and as reals (`ℝ`) for the matrix-decomposition claims;
* calls into external libraries (GLFW, OpenGL driver verdicts, tinyexr's
  `LoadEXR`, tinyobjloader's parse) are modelled as explicit parameters
  carrying the outcome of the call;
* fallible code returns `Option`.
-/

/-! ## Small vector types (glm::vec2 / glm::vec3 / glm::vec4 over ℚ) -/

structure Vec2Q where
  x : ℚ
  y : ℚ
deriving DecidableEq, Repr, Inhabited

structure Vec3Q where
  x : ℚ
  y : ℚ
  z : ℚ
deriving DecidableEq, Repr, Inhabited

structure Vec4Q where
  x : ℚ
  y : ℚ
  z : ℚ
  w : ℚ
deriving DecidableEq, Repr, Inhabited

/-! ## Materials and the material packer (main.cpp lines 62-68, 390-415)

The `Material` record itself is declared in a header that is not part of
`src/`; its fields are modelled from the spec: "an ordered collection of
materials (diffuse/specular/emission color triples, scalar roughness)"
(spec section 4.2 / section 6), which matches every use site in
`allocate_pt_materials`. -/

/-- Modelled from the spec: the engine's `Material` record (declared in a
header outside `src/`) — diffuse/specular/emission color triples plus a
scalar roughness, exactly the fields read by `allocate_pt_materials`. -/
structure Material where
  diffuse : Vec3Q
  specular : Vec3Q
  emission : Vec3Q
  roughness : ℚ
deriving DecidableEq, Repr, Inhabited

/-- main.cpp lines 63-68: the packed per-material record (four `glm::vec4`s). -/
structure CompressedMaterial where
  diffuse : Vec4Q
  specular : Vec4Q
  emission : Vec4Q
  roughness : Vec4Q
deriving DecidableEq, Repr, Inhabited

/-- main.cpp lines 398-405: build one `CompressedMaterial` from one `Material`.
`glm::vec4 {v3, 1.0f}` appends a `1`; `glm::vec4 {s}` splats the scalar. -/
def compressMaterial (m : Material) : CompressedMaterial where
  diffuse := ⟨m.diffuse.x, m.diffuse.y, m.diffuse.z, 1⟩
  specular := ⟨m.specular.x, m.specular.y, m.specular.z, 1⟩
  emission := ⟨m.emission.x, m.emission.y, m.emission.z, 1⟩
  roughness := ⟨m.roughness, m.roughness, m.roughness, m.roughness⟩

/-- main.cpp line 392: `stride = sizeof(CompressedMaterial)/sizeof(glm::vec4)`. -/
def materialStride : ℕ := 4

/-- main.cpp lines 390-415: pack the global material table and upload it as a
one-dimensional float image.  Returns the packed records together with the
`glTexImage2D` width (`stride * materials.size()`) and height (`1`).
The global `Material::all` registry is passed as the argument `all`. -/
def allocate_pt_materials (all : List Material) : List CompressedMaterial × ℕ × ℕ :=
  let materials := all.foldl (fun acc m => acc ++ [compressMaterial m]) []
  (materials, materialStride * materials.length, 1)

/-! ## Pointer-drag orientation state (main.cpp lines 243-251) -/

/-- main.cpp line 220: `sensitivity = 0.1f`. -/
def sensitivity : ℚ := 1/10

/-- main.cpp lines 245-251: add the (sensitivity-scaled) y offset to the
stored pitch, then clamp to `[-89, 89]`. -/
def updatePitch (pitch yoffsetRaw : ℚ) : ℚ :=
  let p := pitch + yoffsetRaw * sensitivity
  if p > 89 then 89 else if p < -89 then -89 else p

/-- The clamp on its own (main.cpp lines 248-251). -/
def clampPitch (p : ℚ) : ℚ :=
  if p > 89 then 89 else if p < -89 then -89 else p

/-- main.cpp line 244: yaw accumulates the (sensitivity-scaled) x offset,
with no clamp. -/
def updateYaw (yaw xoffsetRaw : ℚ) : ℚ :=
  yaw + xoffsetRaw * sensitivity

/-- Stored pitch after a sequence of drag updates, starting from the initial
`pitch = 0.0f` (main.cpp line 225). -/
def pitchAfter (ds : List ℚ) : ℚ :=
  ds.foldl updatePitch 0

/-- Stored yaw after a sequence of drag updates from a starting yaw. -/
def yawAfter (y0 : ℚ) (ds : List ℚ) : ℚ :=
  ds.foldl updateYaw y0

/-! ## Theorems: material packer (claim C4) -/

theorem allocate_pt_materials_push_eq_map (all : List Material) :
    (allocate_pt_materials all).1 = all.map compressMaterial := by
  show List.foldl _ [] all = _
  have h : ∀ (l : List Material) (acc : List CompressedMaterial),
      l.foldl (fun acc m => acc ++ [compressMaterial m]) acc
        = acc ++ l.map compressMaterial := by
    intro l
    induction l with
    | nil => intro acc; simp
    | cons a t ih => intro acc; simp [List.foldl_cons, ih]
  simpa using h all []

/-- C4: the material packer is a faithful, order-preserving transform: for a
table of `N` materials it produces exactly `N` fixed-stride records, uploaded
as a 1-D image of width `4 × N` and height `1`, and record `i`'s diffuse,
specular, emission and roughness fields equal input material `i`'s fields. -/
theorem c4_material_pack_faithful (all : List Material) (i : ℕ)
    (hi : i < all.length) :
    (allocate_pt_materials all).1.length = all.length ∧
    (allocate_pt_materials all).2.1 = 4 * all.length ∧
    (allocate_pt_materials all).2.2 = 1 ∧
    ((allocate_pt_materials all).1.getD i default).diffuse
      = ⟨(all.getD i default).diffuse.x, (all.getD i default).diffuse.y,
         (all.getD i default).diffuse.z, 1⟩ ∧
    ((allocate_pt_materials all).1.getD i default).specular
      = ⟨(all.getD i default).specular.x, (all.getD i default).specular.y,
         (all.getD i default).specular.z, 1⟩ ∧
    ((allocate_pt_materials all).1.getD i default).emission
      = ⟨(all.getD i default).emission.x, (all.getD i default).emission.y,
         (all.getD i default).emission.z, 1⟩ ∧
    ((allocate_pt_materials all).1.getD i default).roughness
      = ⟨(all.getD i default).roughness, (all.getD i default).roughness,
         (all.getD i default).roughness, (all.getD i default).roughness⟩ := by
  have hmap := allocate_pt_materials_push_eq_map all
  have hlen : (allocate_pt_materials all).1.length = all.length := by
    rw [hmap]; simp
  have hwidth : (allocate_pt_materials all).2.1 = 4 * all.length := by
    have h1 : (allocate_pt_materials all).2.1
        = materialStride * (allocate_pt_materials all).1.length := rfl
    rw [h1, hlen]
    rfl
  have hrec : (allocate_pt_materials all).1.getD i default
      = compressMaterial (all.getD i default) := by
    rw [hmap]
    rw [List.getD_eq_getElem?_getD, List.getD_eq_getElem?_getD,
      List.getElem?_map, List.getElem?_eq_getElem hi]
    rfl
  refine ⟨hlen, hwidth, rfl, ?_, ?_, ?_, ?_⟩ <;> rw [hrec] <;> rfl

theorem c4_material_pack_faithful_witness :
    (allocate_pt_materials [⟨⟨1,2,3⟩,⟨4,5,6⟩,⟨7,8,9⟩,(1/2)⟩]).1.length = 1 ∧
    (allocate_pt_materials [⟨⟨1,2,3⟩,⟨4,5,6⟩,⟨7,8,9⟩,(1/2)⟩]).2.1 = 4 * 1 ∧
    (allocate_pt_materials [⟨⟨1,2,3⟩,⟨4,5,6⟩,⟨7,8,9⟩,(1/2)⟩]).2.2 = 1 ∧
    ((allocate_pt_materials [⟨⟨1,2,3⟩,⟨4,5,6⟩,⟨7,8,9⟩,(1/2)⟩]).1.getD 0 default).diffuse
      = ⟨1, 2, 3, 1⟩ ∧
    ((allocate_pt_materials [⟨⟨1,2,3⟩,⟨4,5,6⟩,⟨7,8,9⟩,(1/2)⟩]).1.getD 0 default).specular
      = ⟨4, 5, 6, 1⟩ ∧
    ((allocate_pt_materials [⟨⟨1,2,3⟩,⟨4,5,6⟩,⟨7,8,9⟩,(1/2)⟩]).1.getD 0 default).emission
      = ⟨7, 8, 9, 1⟩ ∧
    ((allocate_pt_materials [⟨⟨1,2,3⟩,⟨4,5,6⟩,⟨7,8,9⟩,(1/2)⟩]).1.getD 0 default).roughness
      = ⟨1/2, 1/2, 1/2, 1/2⟩ := by
  have h := c4_material_pack_faithful [⟨⟨1,2,3⟩,⟨4,5,6⟩,⟨7,8,9⟩,(1/2)⟩] 0 (by decide)
  simpa using h

/-! ## Theorems: pitch clamp / yaw (claim C6) -/

theorem updatePitch_mem_Icc (p d : ℚ) :
    -89 ≤ updatePitch p d ∧ updatePitch p d ≤ 89 := by
  unfold updatePitch
  dsimp only
  split_ifs with h1 h2 <;> constructor <;> linarith

theorem pitchAfter_aux (ds : List ℚ) :
    ∀ p : ℚ, -89 ≤ p → p ≤ 89 →
      -89 ≤ ds.foldl updatePitch p ∧ ds.foldl updatePitch p ≤ 89 := by
  induction ds with
  | nil => intro p h1 h2; exact ⟨h1, h2⟩
  | cons d t ih =>
    intro p _ _
    have hb := updatePitch_mem_Icc p d
    simpa [List.foldl_cons] using ih (updatePitch p d) hb.1 hb.2

theorem yawAfter_sum (ds : List ℚ) :
    ∀ y0 : ℚ, yawAfter y0 ds = y0 + sensitivity * ds.sum := by
  induction ds with
  | nil => intro y0; simp [yawAfter]
  | cons d t ih =>
    intro y0
    have := ih (updateYaw y0 d)
    simp only [yawAfter, List.foldl_cons] at this ⊢
    rw [this]
    simp only [updateYaw, List.sum_cons]
    ring

/-- C6: after every pointer-drag update the stored pitch lies in
`[-89°, +89°]` (for any starting pitch and any delta, and along any delta
sequence from the initial pitch 0); the clamp is idempotent; yaw is never
clamped — it is the plain accumulated sum of scaled deltas, so it exceeds
any bound for a suitable delta sequence. -/
theorem c6_pitch_clamped_yaw_unbounded :
    (∀ p d : ℚ, -89 ≤ updatePitch p d ∧ updatePitch p d ≤ 89) ∧
    (∀ ds : List ℚ, -89 ≤ pitchAfter ds ∧ pitchAfter ds ≤ 89) ∧
    (∀ p : ℚ, clampPitch (clampPitch p) = clampPitch p) ∧
    (∀ y0 : ℚ, ∀ ds : List ℚ, yawAfter y0 ds = y0 + sensitivity * ds.sum) ∧
    (∀ B : ℚ, ∃ ds : List ℚ, B < yawAfter 0 ds) := by
  refine ⟨updatePitch_mem_Icc, ?_, ?_, fun y0 ds => yawAfter_sum ds y0, ?_⟩
  · intro ds
    exact pitchAfter_aux ds 0 (by norm_num) (by norm_num)
  · intro p
    unfold clampPitch
    split_ifs <;> first | rfl | linarith
  · intro B
    refine ⟨[10 * B + 10], ?_⟩
    rw [yawAfter_sum]
    simp [sensitivity]
    linarith

/-! ## The environment-map handoff and the frame loop
(main.cpp lines 149-168, 417-507)

`LoadEXR` is an external decoder; its outcome is a parameter.  The future
returned by `std::async` is modelled as a three-state value: `pending`
(valid, not yet resolved), `ready` (valid and resolved — `wait_for(0)`
returns `ready`), and `consumed` (`future.get()` has been called, so
`future.valid()` is false ever after). -/

/-- The `std::tuple <float *, int, int>` produced by `exr_loader`:
a nullable texel buffer plus width and height. -/
structure ExrResult where
  data : Option (List ℚ)
  width : Int
  height : Int
deriving DecidableEq, Repr

/-- main.cpp lines 149-166: the background decode task.  `outcome` is what
the external `LoadEXR` call produced (`none` = nonzero return code).
Returns the tuple handed to the future plus the diagnostics logged. -/
def exr_loader (outcome : Option (List ℚ × Int × Int)) : ExrResult × List String :=
  match outcome with
  | none => (⟨none, 0, 0⟩, ["Error loading EXR"])
  | some (d, w, h) => (⟨some d, w, h⟩, ["Loaded EXR"])

/-- The state of the `std::future` polled by `render_pt_pipeline`. -/
inductive FutureState where
  | pending
  | ready (r : ExrResult)
  | consumed
deriving DecidableEq, Repr

/-- A GPU environment-map texture as created at main.cpp lines 477-482. -/
structure EnvTexture where
  width : Int
  height : Int
  data : Option (List ℚ)
deriving DecidableEq, Repr

/-- The `pt` global's environment-map slot plus an upload counter used to
state the single-transition property (each `glTexImage2D` on the
environment map counts as one upload). -/
structure PtEnvState where
  environment_map : Option EnvTexture
  uploads : ℕ
deriving DecidableEq, Repr

/-- The frame-loop state observable by the claims: the future, the
environment-map slot, the log, and every compute dispatch issued so far. -/
structure LoopState where
  future : FutureState
  pt : PtEnvState
  log : List String
  dispatches : List (ℕ × ℕ × ℕ)
deriving DecidableEq, Repr

/-- main.cpp lines 21-22: `RENDER_WIDTH`, `RENDER_HEIGHT`. -/
def RENDER_WIDTH : ℕ := 1000

def RENDER_HEIGHT : ℕ := 1000

/-- main.cpp lines 136-138: the compute render target is allocated at
`RENDER_WIDTH × RENDER_HEIGHT`. -/
def renderTargetSize : ℕ × ℕ := (RENDER_WIDTH, RENDER_HEIGHT)

/-- main.cpp lines 467-494: the per-frame environment-map poll.
If the future is valid and ready, `future.get()` consumes it and the result
is — unconditionally, with no check of the failure sentinel — uploaded into
a freshly created texture (`glGenTextures`/`glTexImage2D`), after which the
CPU buffer is freed.  If the future is valid but pending, nothing changes.
If the future is no longer valid (already consumed), the existing
environment map is bound and nothing changes. -/
def pollEnvironment (s : LoopState) : LoopState :=
  match s.future with
  | .pending => s
  | .ready r =>
      { s with
        future := .consumed
        pt := { environment_map := some ⟨r.width, r.height, r.data⟩
                uploads := s.pt.uploads + 1 }
        log := s.log ++ ["Creating environment map texture"] }
  | .consumed => s

/-- main.cpp lines 417-507 (the parts the claims observe): one call of
`render_pt_pipeline` performs the environment poll and then issues
`glDispatchCompute(RENDER_WIDTH, RENDER_HEIGHT, 1)` (line 506). -/
def render_pt_pipeline (s : LoopState) : LoopState :=
  let s' := pollEnvironment s
  { s' with dispatches := s'.dispatches ++ [(RENDER_WIDTH, RENDER_HEIGHT, 1)] }

/-- The background task finishing: a valid pending future becomes ready with
the loader's result.  (The real future resolves exactly once; resolving is a
no-op in any other state.) -/
def resolveFuture (r : ExrResult) (s : LoopState) : LoopState :=
  match s.future with
  | .pending => { s with future := .ready r }
  | _ => s

/-- The events driving the loop: one main-loop iteration (main.cpp lines
171-203), or the background decode completing. -/
inductive LoopEvent where
  | frame
  | finish (r : ExrResult)
deriving DecidableEq, Repr

def loopStep : LoopEvent → LoopState → LoopState
  | .frame, s => render_pt_pipeline s
  | .finish r, s => resolveFuture r s

def runLoop (evs : List LoopEvent) (s : LoopState) : LoopState :=
  evs.foldl (fun s e => loopStep e s) s

/-- main.cpp line 168: at startup the future is freshly launched (valid,
pending), no environment texture exists, nothing has been dispatched. -/
def initLoopState : LoopState :=
  ⟨.pending, ⟨none, 0⟩, [], []⟩

/-! ## Theorems: decode-failure handling (claim C1)

The claim says that after a failed decode (sentinel `{nullptr, 0, 0}`) no
environment-map image is created and a diagnostic is the only effect.  The
code at main.cpp lines 467-487 never tests the sentinel: the ready branch
unconditionally creates and uploads a texture from the null 0×0 result.
The frame loop does continue (later frames still dispatch). -/

/-- C1 (failing run): the loader fails (`LoadEXR` returns nonzero), yielding
the sentinel `{nullptr, 0, 0}` and logging a diagnostic; on the next frame
the orchestrator nevertheless creates an environment-map texture (0×0, null
data) and counts an upload, while the frame loop continues (two frames both
issue their dispatch).  This contradicts the claim's "no environment-map
image is created, a diagnostic is the only effect". -/
theorem c1_failed_decode_still_creates_env_texture :
    (exr_loader none).1 = ⟨none, 0, 0⟩ ∧
    (exr_loader none).2 = ["Error loading EXR"] ∧
    (runLoop [.finish (exr_loader none).1, .frame, .frame] initLoopState).pt.environment_map
      = some ⟨0, 0, none⟩ ∧
    (runLoop [.finish (exr_loader none).1, .frame, .frame] initLoopState).pt.uploads = 1 ∧
    (runLoop [.finish (exr_loader none).1, .frame, .frame] initLoopState).dispatches
      = [(RENDER_WIDTH, RENDER_HEIGHT, 1), (RENDER_WIDTH, RENDER_HEIGHT, 1)] := by
  refine ⟨rfl, rfl, rfl, rfl, rfl⟩

/-! ## Theorems: single upload transition (claim C2) -/

/-- Once the future has been consumed, neither a frame nor a (spurious)
finish event changes the `pt` environment state or revalidates the future. -/
theorem loopStep_consumed (e : LoopEvent) (s : LoopState)
    (h : s.future = .consumed) :
    (loopStep e s).future = .consumed ∧ (loopStep e s).pt = s.pt := by
  cases e with
  | frame => simp [loopStep, render_pt_pipeline, pollEnvironment, h]
  | finish r => simp [loopStep, resolveFuture, h]

theorem pollEnvironment_dispatches (s : LoopState) :
    (pollEnvironment s).dispatches = s.dispatches := by
  cases hf : s.future <;> simp [pollEnvironment, hf]

theorem runLoop_consumed (evs : List LoopEvent) :
    ∀ s : LoopState, s.future = .consumed →
      (runLoop evs s).future = .consumed ∧ (runLoop evs s).pt = s.pt := by
  induction evs with
  | nil => intro s h; exact ⟨h, rfl⟩
  | cons e t ih =>
    intro s h
    have hs := loopStep_consumed e s h
    have := ih (loopStep e s) hs.1
    simp only [runLoop, List.foldl_cons] at *
    exact ⟨this.1, this.2.trans hs.2⟩

/-- The upload-count invariant: before consumption no upload has happened;
after consumption at most one has. -/
def UploadInv (s : LoopState) : Prop :=
  (s.future = .consumed → s.pt.uploads ≤ 1) ∧
  (s.future ≠ .consumed → s.pt.uploads = 0)

theorem loopStep_uploadInv (e : LoopEvent) (s : LoopState)
    (h : UploadInv s) : UploadInv (loopStep e s) := by
  obtain ⟨h1, h2⟩ := h
  cases e with
  | frame =>
    cases hf : s.future with
    | pending =>
      constructor
      · intro hc
        simp [loopStep, render_pt_pipeline, pollEnvironment, hf] at hc
      · intro _
        have h0 : s.pt.uploads = 0 := h2 (by simp [hf])
        simp [loopStep, render_pt_pipeline, pollEnvironment, hf, h0]
    | ready r =>
      constructor
      · intro _
        have h0 : s.pt.uploads = 0 := h2 (by simp [hf])
        simp [loopStep, render_pt_pipeline, pollEnvironment, hf, h0]
      · intro hc
        simp [loopStep, render_pt_pipeline, pollEnvironment, hf] at hc
    | consumed =>
      have hs := loopStep_consumed .frame s hf
      exact ⟨fun _ => hs.2 ▸ h1 hf, fun hc => absurd hs.1 hc⟩
  | finish r =>
    cases hf : s.future with
    | pending =>
      constructor
      · intro hc
        simp [loopStep, resolveFuture, hf] at hc
      · intro _
        have h0 : s.pt.uploads = 0 := h2 (by simp [hf])
        simp [loopStep, resolveFuture, hf, h0]
    | ready r' =>
      constructor
      · intro hc
        simp [loopStep, resolveFuture, hf] at hc
      · intro _
        have h0 : s.pt.uploads = 0 := h2 (by simp [hf])
        simp [loopStep, resolveFuture, hf, h0]
    | consumed =>
      have hs := loopStep_consumed (.finish r) s hf
      exact ⟨fun _ => hs.2 ▸ h1 hf, fun hc => absurd hs.1 hc⟩

theorem runLoop_uploadInv (evs : List LoopEvent) :
    ∀ s : LoopState, UploadInv s → UploadInv (runLoop evs s) := by
  induction evs with
  | nil => intro s h; exact h
  | cons e t ih =>
    intro s h
    simp only [runLoop, List.foldl_cons]
    exact ih _ (loopStep_uploadInv e s h)

/-- C2: across any execution of the frame loop the decoded environment
buffer is uploaded at most once; and from any state in which the future has
been consumed, any further sequence of frames (and spurious resolutions)
leaves the environment state untouched — repeated polls never re-trigger an
upload or a second consumption. -/
theorem c2_env_upload_at_most_once (evs : List LoopEvent) (s : LoopState)
    (hs : s.future = .consumed) :
    (runLoop evs initLoopState).pt.uploads ≤ 1 ∧
    (runLoop evs s).pt = s.pt := by
  constructor
  · have hinit : UploadInv initLoopState := by
      constructor
      · intro h; simp [initLoopState] at h
      · intro _; rfl
    have h := runLoop_uploadInv evs initLoopState hinit
    rcases h with ⟨h1, h2⟩
    by_cases hc : (runLoop evs initLoopState).future = .consumed
    · exact h1 hc
    · exact le_of_eq (h2 hc) |>.trans (by omega)
  · exact (runLoop_consumed evs s hs).2

theorem c2_env_upload_at_most_once_witness :
    (runLoop [.finish ⟨none, 0, 0⟩, .frame, .frame] initLoopState).pt.uploads ≤ 1 ∧
    (runLoop [.finish ⟨none, 0, 0⟩, .frame, .frame]
        (⟨.consumed, ⟨some ⟨4, 2, some [1]⟩, 1⟩, [], []⟩ : LoopState)).pt
      = (⟨.consumed, ⟨some ⟨4, 2, some [1]⟩, 1⟩, [], []⟩ : LoopState).pt :=
  c2_env_upload_at_most_once [.finish ⟨none, 0, 0⟩, .frame, .frame]
    ⟨.consumed, ⟨some ⟨4, 2, some [1]⟩, 1⟩, [], []⟩ rfl

/-! ## Theorems: dispatch grid equals render resolution (claim C7) -/

theorem runLoop_dispatches (evs : List LoopEvent) :
    ∀ s : LoopState,
      (∀ d ∈ s.dispatches, d = (RENDER_WIDTH, RENDER_HEIGHT, 1)) →
      ∀ d ∈ (runLoop evs s).dispatches, d = (RENDER_WIDTH, RENDER_HEIGHT, 1) := by
  induction evs with
  | nil => intro s h; exact h
  | cons e t ih =>
    intro s h
    simp only [runLoop, List.foldl_cons]
    refine ih _ ?_
    cases e with
    | frame =>
      intro d hd
      simp only [loopStep, render_pt_pipeline, pollEnvironment_dispatches,
        List.mem_append] at hd
      rcases hd with hd | hd
      · exact h d hd
      · simpa using hd
    | finish r =>
      intro d hd
      cases hf : s.future <;> simp only [loopStep, resolveFuture, hf] at hd <;> exact h d hd

/-- C7: every compute dispatch issued by any execution of the frame loop has
grid size exactly equal to the render target's resolution —
`(RENDER_WIDTH, RENDER_HEIGHT, 1) = (1000, 1000, 1)`, one invocation group
per output pixel of the 1000×1000 target. -/
theorem c7_dispatch_grid_equals_resolution (evs : List LoopEvent)
    (d : ℕ × ℕ × ℕ) (hd : d ∈ (runLoop evs initLoopState).dispatches) :
    d = (renderTargetSize.1, renderTargetSize.2, 1) ∧ d = (1000, 1000, 1) := by
  have h := runLoop_dispatches evs initLoopState (by intro d hd; simp [initLoopState] at hd) d hd
  exact ⟨h, h⟩

theorem c7_dispatch_grid_equals_resolution_witness :
    ((1000, 1000, 1) : ℕ × ℕ × ℕ) = (renderTargetSize.1, renderTargetSize.2, 1) ∧
    ((1000, 1000, 1) : ℕ × ℕ × ℕ) = (1000, 1000, 1) :=
  c7_dispatch_grid_equals_resolution [.frame] (1000, 1000, 1) (by
    have hds : (runLoop [.frame] initLoopState).dispatches = [(1000, 1000, 1)] := rfl
    rw [hds]
    exact List.mem_singleton.mpr rfl)

/-! ## The G-buffer draw loop (main.cpp lines 440-448; claim C5)

`render_pt_pipeline` binds `buffers[0].vao` *before* the per-submesh loop.
`std::vector::operator[]` on index 0 of an empty vector is out of bounds
(undefined behavior), modelled as `none`.  For a nonempty list the stage
issues one indexed draw per buffer, in order, with that buffer's material
index bound per draw. -/

/-- The per-submesh GPU buffer pair as used by the draw loop: its VAO, its
index count, and the back-referenced source submesh's material index
(`buffer.source->material_index`). -/
structure GLBuffersRec where
  vao : ℕ
  count : ℕ
  material_index : ℕ
deriving DecidableEq, Repr

/-- One issued `glDrawElements` call together with the `material_index`
uniform in effect. -/
structure DrawCall where
  material_index : ℕ
  count : ℕ
deriving DecidableEq, Repr

/-- main.cpp lines 440-448: bind `buffers[0].vao`, then for every buffer set
its material index and draw `buffer.count` indices.  `none` models the
out-of-bounds vector access on an empty buffer list. -/
def gbufferDraws (buffers : List GLBuffersRec) : Option (List DrawCall) :=
  match buffers.head? with
  | none => none
  | some _ => some (buffers.map fun b => ⟨b.material_index, b.count⟩)

/-- C5 (evaluated at the failing input): with an empty submesh list the
G-buffer stage does not complete with zero draws — it faults on the
`buffers[0]` access before the loop (out-of-bounds on an empty
`std::vector`), so the claim's "completes validly, yielding an empty frame"
fails; with a nonempty list it does issue one draw per submesh in order. -/
theorem c5_empty_submesh_list_faults :
    gbufferDraws [] = none ∧
    gbufferDraws [⟨1, 6, 0⟩, ⟨2, 4, 3⟩] = some [⟨0, 6⟩, ⟨3, 4⟩] := by
  exact ⟨rfl, rfl⟩

/-! ## G-buffer allocation (main.cpp lines 324-388; claim C8)

`allocate_gl_framebuffer` creates the framebuffer object, the three color
textures and the depth texture, attaches them, and asks the driver whether
the multi-output binding validated (`glCheckFramebufferStatus`).  The
driver's verdict on each attachment is external; it is modelled as one
boolean per required attachment, and the status check succeeds exactly when
all of them are bound.  On an incomplete framebuffer the function reports
the error and returns `{}` — the value-initialized record whose handles are
all `0`, the invalid (null) GL object name. -/

/-- main.cpp lines 33-40: the framebuffer record. -/
structure FramebufferRec where
  framebuffer : ℕ
  g_position : ℕ
  g_normal : ℕ
  g_material_index : ℕ
deriving DecidableEq, Repr

/-- The driver's verdict on the four required attachments of the G-buffer
(three color outputs plus depth). -/
structure AttachStatus where
  color0 : Bool
  color1 : Bool
  color2 : Bool
  depth : Bool
deriving DecidableEq, Repr

/-- `glCheckFramebufferStatus == GL_FRAMEBUFFER_COMPLETE`: every required
attachment is bound. -/
def framebufferComplete (st : AttachStatus) : Bool :=
  st.color0 && st.color1 && st.color2 && st.depth

/-- main.cpp lines 324-388: allocate the G-buffer.  GL object names are
generated sequentially from 1 (`glGen*` never yields 0; 0 is the invalid
name).  Returns the record plus whether the incomplete-framebuffer error
was reported. -/
def allocate_gl_framebuffer (st : AttachStatus) : FramebufferRec × Bool :=
  if framebufferComplete st then (⟨1, 1, 2, 3⟩, false) else (⟨0, 0, 0, 0⟩, true)

/-- The stage is `Ready` only when allocation handed back a usable (nonzero)
framebuffer handle. -/
def framebufferReady (fb : FramebufferRec) : Prop :=
  fb.framebuffer ≠ 0

/-- C8: if any required attachment of the G-buffer is unbound (the driver
reports the framebuffer incomplete), the error is reported, the allocation
returns the empty/invalid (all-zero) handle, and the stage never reaches
`Ready`. -/
theorem c8_incomplete_framebuffer_not_ready (st : AttachStatus)
    (h : st.color0 = false ∨ st.color1 = false ∨ st.color2 = false ∨ st.depth = false) :
    (allocate_gl_framebuffer st).1 = ⟨0, 0, 0, 0⟩ ∧
    (allocate_gl_framebuffer st).2 = true ∧
    ¬ framebufferReady (allocate_gl_framebuffer st).1 := by
  have hc : framebufferComplete st = false := by
    rcases h with h | h | h | h <;> simp [framebufferComplete, h]
  refine ⟨?_, ?_, ?_⟩ <;> simp [allocate_gl_framebuffer, hc, framebufferReady]

theorem c8_incomplete_framebuffer_not_ready_witness :
    (allocate_gl_framebuffer ⟨false, true, true, true⟩).1 = ⟨0, 0, 0, 0⟩ ∧
    (allocate_gl_framebuffer ⟨false, true, true, true⟩).2 = true ∧
    ¬ framebufferReady (allocate_gl_framebuffer ⟨false, true, true, true⟩).1 :=
  c8_incomplete_framebuffer_not_ready ⟨false, true, true, true⟩ (Or.inl rfl)

/-! ## The model loader (mesh.cpp lines 80-296; claims C9, C10)

tinyobjloader is an external parser; filesystem existence and the parse
outcome are parameters.  Its output (`attrib`, `shapes`) is modelled
directly.  `std::unordered_map` is modelled as an association list looked
up by decidable equality.  The single numeric operation whose float
semantics the claims do not depend on — `glm::normalize`'s square root —
is abstracted as a function parameter `sqrtQ`; every other arithmetic step
(cross product, subtraction, attribute indexing) is exact. -/

/-- `tinyobj::index_t`: vertex/normal/texcoord indices, `-1` meaning
absent for normals and texcoords. -/
structure ObjIndex where
  vertex_index : Int
  normal_index : Int
  texcoord_index : Int
deriving DecidableEq, Repr, Inhabited

/-- `tinyobj::attrib_t`: flat float arrays. -/
structure ObjAttrib where
  vertices : List ℚ
  normals : List ℚ
  texcoords : List ℚ
deriving DecidableEq, Repr, Inhabited

/-- One shape's mesh, with faces already grouped by `num_face_vertices`
(face `f` holds `num_face_vertices[f]` entries of `mesh.indices`) and the
parallel `material_ids` array. -/
structure ObjShape where
  faces : List (List ObjIndex)
  material_ids : List Int
deriving DecidableEq, Repr, Inhabited

/-- The parser's successful output. -/
structure ObjData where
  attrib : ObjAttrib
  shapes : List ObjShape
deriving DecidableEq, Repr, Inhabited

/-- The engine's `Vertex` (position, normal, uv), as read off the attribute
arrays in mesh.cpp lines 137-187. -/
structure Vertex where
  position : Vec3Q
  normal : Vec3Q
  uv : Vec2Q
deriving DecidableEq, Repr, Inhabited

/-- mesh.cpp line 214: the submesh material is a default-constructed
`Material` (the parsing of tinyobj materials is commented out). -/
def defaultMeshMaterial : Material := ⟨⟨0, 0, 0⟩, ⟨0, 0, 0⟩, ⟨0, 0, 0⟩, 0⟩

/-- The engine's `Mesh`: vertex list, index list, material. -/
structure MeshRec where
  vertices : List Vertex
  indices : List ℕ
  material : Material
deriving DecidableEq, Repr, Inhabited

/-- The engine's `Model`. -/
structure ModelRec where
  meshes : List MeshRec
deriving DecidableEq, Repr, Inhabited

/-- Indexing a flat float attribute array: `arr[i]` (0 for an index the
parser would never produce in a well-formed file). -/
def attrAt (l : List ℚ) (i : Int) : ℚ :=
  if 0 ≤ i then l.getD i.toNat 0 else 0

def vsub3 (a b : Vec3Q) : Vec3Q := ⟨a.x - b.x, a.y - b.y, a.z - b.z⟩

def cross3 (a b : Vec3Q) : Vec3Q :=
  ⟨a.y * b.z - a.z * b.y, a.z * b.x - a.x * b.z, a.x * b.y - a.y * b.x⟩

def dot3 (a b : Vec3Q) : ℚ := a.x * b.x + a.y * b.y + a.z * b.z

/-- `glm::normalize`, with the float square root abstracted as `sqrtQ`
(division by zero is ℚ's total division, standing in for the float's
NaN path, which the claims never depend on). -/
def qnormalize (sqrtQ : ℚ → ℚ) (v : Vec3Q) : Vec3Q :=
  let l := sqrtQ (dot3 v v)
  ⟨v.x / l, v.y / l, v.z / l⟩

/-- Position read for an `ObjIndex` (mesh.cpp lines 139-143). -/
def positionOf (attrib : ObjAttrib) (idx : ObjIndex) : Vec3Q :=
  ⟨attrAt attrib.vertices (3 * idx.vertex_index),
   attrAt attrib.vertices (3 * idx.vertex_index + 1),
   attrAt attrib.vertices (3 * idx.vertex_index + 2)⟩

/-- mesh.cpp lines 137-187: build the `Vertex` for position `v` of `face`.
When the normal index is absent the geometric normal is computed from the
previous and next face corners (`pindex`/`nindex`, mesh.cpp lines 151-178). -/
def buildVertex (sqrtQ : ℚ → ℚ) (attrib : ObjAttrib) (face : List ObjIndex)
    (v : ℕ) (idx : ObjIndex) : Vertex :=
  let fv := face.length
  let position := positionOf attrib idx
  let normal :=
    if 0 ≤ idx.normal_index then
      ⟨attrAt attrib.normals (3 * idx.normal_index),
       attrAt attrib.normals (3 * idx.normal_index + 1),
       attrAt attrib.normals (3 * idx.normal_index + 2)⟩
    else
      let pindex := (v + fv - 1) % fv
      let nindex := (v + 1) % fv
      let p := face.getD pindex default
      let n := face.getD nindex default
      let vn := positionOf attrib p
      let vp := positionOf attrib n
      let e1 := vsub3 vp position
      let e2 := vsub3 vn position
      qnormalize sqrtQ (cross3 e1 e2)
  let uv :=
    if 0 ≤ idx.texcoord_index then
      (⟨attrAt attrib.texcoords (2 * idx.texcoord_index),
        1 - attrAt attrib.texcoords (2 * idx.texcoord_index + 1)⟩ : Vec2Q)
    else
      (⟨0, 0⟩ : Vec2Q)
  ⟨position, normal, uv⟩

/-- Association-list lookup standing in for `std::unordered_map`. -/
def alookup {α : Type} [DecidableEq α] : List (α × ℕ) → α → Option ℕ
  | [], _ => none
  | (k, v) :: t, a => if a = k then some v else alookup t a

/-- The per-submesh accumulation state of mesh.cpp lines 116-120. -/
structure SubState where
  vertices : List Vertex
  indices : List ℕ
  unique_vertices : List (Vertex × ℕ)
  index_map : List (ObjIndex × ℕ)
deriving DecidableEq, Repr, Inhabited

def emptySub : SubState := ⟨[], [], [], []⟩

/-- mesh.cpp lines 128-205: process one face corner.  If the tinyobj index
was seen before, reuse its id; otherwise build the vertex, dedups it
against `unique_vertices`, and record the mapping. -/
def processVertex (sqrtQ : ℚ → ℚ) (attrib : ObjAttrib) (face : List ObjIndex)
    (v : ℕ) (st : SubState) : SubState :=
  let idx := face.getD v default
  match alookup st.index_map idx with
  | some id => { st with indices := st.indices ++ [id] }
  | none =>
    let vertex := buildVertex sqrtQ attrib face v idx
    match alookup st.unique_vertices vertex with
    | some id =>
        { st with
          index_map := (idx, id) :: st.index_map
          indices := st.indices ++ [id] }
    | none =>
        let id := st.vertices.length
        { st with
          vertices := st.vertices ++ [vertex]
          unique_vertices := (vertex, id) :: st.unique_vertices
          index_map := (idx, id) :: st.index_map
          indices := st.indices ++ [id] }

/-- mesh.cpp lines 128-205: the loop over the vertices of one face. -/
def processFace (sqrtQ : ℚ → ℚ) (attrib : ObjAttrib) (face : List ObjIndex)
    (st : SubState) : SubState :=
  (List.range face.length).foldl (fun s v => processVertex sqrtQ attrib face v s) st

/-- mesh.cpp lines 123-292: the loop over a shape's faces.  After face `f`,
if it is the last face or the material id changes at `f + 1`, push the
accumulated submesh (with the default-constructed material) and clear all
four containers. -/
def processFaces (sqrtQ : ℚ → ℚ) (attrib : ObjAttrib) :
    List (List ObjIndex × Int) → SubState → List MeshRec → List MeshRec
  | [], _, acc => acc
  | (face, m) :: rest, st, acc =>
    let st' := processFace sqrtQ attrib face st
    let push :=
      match rest with
      | [] => true
      | (_, m') :: _ => decide (m ≠ m')
    if push then
      processFaces sqrtQ attrib rest emptySub
        (acc ++ [⟨st'.vertices, st'.indices, defaultMeshMaterial⟩])
    else
      processFaces sqrtQ attrib rest st' acc

/-- mesh.cpp lines 113-293: the loop over shapes (each shape starts with
fresh containers). -/
def processShape (sqrtQ : ℚ → ℚ) (attrib : ObjAttrib) (sh : ObjShape) : List MeshRec :=
  processFaces sqrtQ attrib (sh.faces.zip sh.material_ids) emptySub []

/-- mesh.cpp lines 80-296: `load_model`.  `fileExists` is the
`std::filesystem::exists` verdict; `parsed` is tinyobjloader's outcome
(`none` = `ParseFromFile` failed).  Returns the model and the diagnostics
written to stderr. -/
def load_model (sqrtQ : ℚ → ℚ) (fileExists : Bool) (parsed : Option ObjData) :
    ModelRec × List String :=
  if !fileExists then
    (⟨[]⟩, ["Could not find model at path provided"])
  else
    match parsed with
    | none => (⟨[]⟩, ["Failed to load model"])
    | some obj =>
        (⟨obj.shapes.foldl (fun acc sh => acc ++ processShape sqrtQ obj.attrib sh) []⟩, [])

/-! ## Theorems: loader failure modes (claim C10) -/

/-- C10: when the file does not exist, or the OBJ parser fails, `load_model`
returns an empty model (no submeshes) — it neither crashes nor throws, being
a total function into `ModelRec` — and a diagnostic is printed in both
cases. -/
theorem c10_load_model_failure_empty_model (sqrtQ : ℚ → ℚ) :
    (∀ parsed, (load_model sqrtQ false parsed).1.meshes = [] ∧
      (load_model sqrtQ false parsed).2 = ["Could not find model at path provided"]) ∧
    ((load_model sqrtQ true none).1.meshes = [] ∧
      (load_model sqrtQ true none).2 = ["Failed to load model"]) := by
  refine ⟨fun parsed => ⟨rfl, rfl⟩, rfl, rfl⟩

/-! ## Theorems: loader invariants (claim C9) -/

theorem alookup_eq_some {α : Type} [DecidableEq α] (l : List (α × ℕ)) (a : α)
    (id : ℕ) (h : alookup l a = some id) : (a, id) ∈ l := by
  induction l with
  | nil => simp [alookup] at h
  | cons p t ih =>
    obtain ⟨k, w⟩ := p
    simp only [alookup] at h
    by_cases hak : a = k
    · rw [if_pos hak] at h
      obtain rfl := Option.some.inj h
      subst hak
      exact List.mem_cons_self _ _
    · rw [if_neg hak] at h
      exact List.mem_cons_of_mem _ (ih h)

/-- The invariant tying the per-submesh containers together. -/
def SubInv (st : SubState) : Prop :=
  (∀ i ∈ st.indices, i < st.vertices.length) ∧
  st.vertices.Nodup ∧
  (∀ p ∈ st.unique_vertices, st.vertices[p.2]? = some p.1) ∧
  (∀ v ∈ st.vertices, ∃ id, alookup st.unique_vertices v = some id) ∧
  (∀ p ∈ st.index_map, p.2 < st.vertices.length)

theorem emptySub_inv : SubInv emptySub := by
  refine ⟨?_, ?_, ?_, ?_, ?_⟩ <;> simp [emptySub]

theorem uv_entry_lt {st : SubState} (h : SubInv st) {p : Vertex × ℕ}
    (hp : p ∈ st.unique_vertices) : p.2 < st.vertices.length := by
  have := h.2.2.1 p hp
  exact (List.getElem?_eq_some.mp this).1

theorem processVertex_inv (sqrtQ : ℚ → ℚ) (attrib : ObjAttrib)
    (face : List ObjIndex) (v : ℕ) (st : SubState)
    (h : SubInv st) : SubInv (processVertex sqrtQ attrib face v st) := by
  obtain ⟨hind, hnd, huv, hcomp, him⟩ := h
  unfold processVertex
  cases hm : alookup st.index_map (face.getD v default) with
  | some id =>
    simp only [hm]
    have hid : id < st.vertices.length :=
      him _ (alookup_eq_some _ _ _ hm)
    refine ⟨?_, hnd, huv, hcomp, him⟩
    intro i hi
    rcases List.mem_append.mp hi with hi | hi
    · exact hind i hi
    · rcases List.mem_singleton.mp hi with rfl
      exact hid
  | none =>
    simp only [hm]
    cases hu : alookup st.unique_vertices (buildVertex sqrtQ attrib face v (face.getD v default)) with
    | some id =>
      simp only [hu]
      have hmem := alookup_eq_some _ _ _ hu
      have hid : id < st.vertices.length :=
        uv_entry_lt ⟨hind, hnd, huv, hcomp, him⟩ hmem
      refine ⟨?_, hnd, huv, hcomp, ?_⟩
      · intro i hi
        rcases List.mem_append.mp hi with hi | hi
        · exact hind i hi
        · rcases List.mem_singleton.mp hi with rfl
          exact hid
      · intro p hp
        rcases List.mem_cons.mp hp with rfl | hp
        · exact hid
        · exact him p hp
    | none =>
      simp only [hu]
      set vx := buildVertex sqrtQ attrib face v (face.getD v default) with hvx
      have hnotmem : vx ∉ st.vertices := by
        intro hvmem
        obtain ⟨id, hid⟩ := hcomp vx hvmem
        rw [hu] at hid
        exact Option.noConfusion hid
      refine ⟨?_, ?_, ?_, ?_, ?_⟩
      · intro i hi
        simp only [List.length_append, List.length_singleton]
        rcases List.mem_append.mp hi with hi | hi
        · exact lt_of_lt_of_le (hind i hi) (by omega)
        · rcases List.mem_singleton.mp hi with rfl
          omega
      · rw [List.nodup_append]
        exact ⟨hnd, List.nodup_singleton _, by
          intro a ha hb
          rcases List.mem_singleton.mp hb with rfl
          exact hnotmem ha⟩
      · intro p hp
        rcases List.mem_cons.mp hp with rfl | hp
        · simp
        · have := huv p hp
          have hlt : p.2 < st.vertices.length := (List.getElem?_eq_some.mp this).1
          show (st.vertices ++ [vx])[p.2]? = some p.1
          rw [List.getElem?_append_left hlt]
          exact this
      · intro w hw
        rcases List.mem_append.mp hw with hw | hw
        · obtain ⟨id, hid⟩ := hcomp w hw
          by_cases hwe : w = vx
          · exact ⟨st.vertices.length, by simp [alookup, hwe]⟩
          · exact ⟨id, by simp [alookup, hwe, hid]⟩
        · rcases List.mem_singleton.mp hw with rfl
          exact ⟨st.vertices.length, by simp [alookup]⟩
      · intro p hp
        simp only [List.length_append, List.length_singleton]
        rcases List.mem_cons.mp hp with rfl | hp
        · omega
        · exact lt_of_lt_of_le (him p hp) (by omega)

theorem processFace_inv (sqrtQ : ℚ → ℚ) (attrib : ObjAttrib)
    (face : List ObjIndex) (st : SubState) (h : SubInv st) :
    SubInv (processFace sqrtQ attrib face st) := by
  unfold processFace
  have hgen : ∀ (l : List ℕ) (st : SubState), SubInv st →
      SubInv (l.foldl (fun s v => processVertex sqrtQ attrib face v s) st) := by
    intro l
    induction l with
    | nil => intro st h; exact h
    | cons a t ih =>
      intro st h
      simp only [List.foldl_cons]
      exact ih _ (processVertex_inv sqrtQ attrib face a st h)
  exact hgen _ st h

/-- The per-submesh guarantee the claim states. -/
def MeshOK (m : MeshRec) : Prop :=
  (∀ i ∈ m.indices, i < m.vertices.length) ∧ m.vertices.Nodup

theorem processFaces_ok (sqrtQ : ℚ → ℚ) (attrib : ObjAttrib)
    (l : List (List ObjIndex × Int)) :
    ∀ (st : SubState) (acc : List MeshRec), SubInv st →
      (∀ m ∈ acc, MeshOK m) →
      ∀ m ∈ processFaces sqrtQ attrib l st acc, MeshOK m := by
  induction l with
  | nil =>
    intro st acc _ hacc
    simpa [processFaces] using hacc
  | cons p rest ih =>
    obtain ⟨face, mid⟩ := p
    intro st acc hst hacc
    have hst' := processFace_inv sqrtQ attrib face st hst
    have haccpush : ∀ m ∈ acc ++ [(⟨(processFace sqrtQ attrib face st).vertices,
        (processFace sqrtQ attrib face st).indices, defaultMeshMaterial⟩ : MeshRec)],
        MeshOK m := by
      intro m hm
      rcases List.mem_append.mp hm with hm | hm
      · exact hacc m hm
      · rcases List.mem_singleton.mp hm with rfl
        exact ⟨hst'.1, hst'.2.1⟩
    cases rest with
    | nil =>
      have hstep : processFaces sqrtQ attrib [(face, mid)] st acc
          = processFaces sqrtQ attrib [] emptySub
            (acc ++ [⟨(processFace sqrtQ attrib face st).vertices,
              (processFace sqrtQ attrib face st).indices, defaultMeshMaterial⟩]) := by
        simp [processFaces]
      rw [hstep]
      exact ih emptySub _ emptySub_inv haccpush
    | cons q rest' =>
      obtain ⟨face', mid'⟩ := q
      by_cases hmid : mid = mid'
      · have hstep : processFaces sqrtQ attrib ((face, mid) :: (face', mid') :: rest') st acc
            = processFaces sqrtQ attrib ((face', mid') :: rest')
              (processFace sqrtQ attrib face st) acc := by
          simp [processFaces, hmid]
        rw [hstep]
        exact ih _ _ hst' hacc
      · have hstep : processFaces sqrtQ attrib ((face, mid) :: (face', mid') :: rest') st acc
            = processFaces sqrtQ attrib ((face', mid') :: rest') emptySub
              (acc ++ [⟨(processFace sqrtQ attrib face st).vertices,
                (processFace sqrtQ attrib face st).indices, defaultMeshMaterial⟩]) := by
          simp [processFaces, hmid]
        rw [hstep]
        exact ih emptySub _ emptySub_inv haccpush

theorem foldl_shapes_ok (sqrtQ : ℚ → ℚ) (attrib : ObjAttrib)
    (shapes : List ObjShape) :
    ∀ acc : List MeshRec, (∀ m ∈ acc, MeshOK m) →
      ∀ m ∈ shapes.foldl (fun acc sh => acc ++ processShape sqrtQ attrib sh) acc,
        MeshOK m := by
  induction shapes with
  | nil => intro acc hacc; simpa using hacc
  | cons sh t ih =>
    intro acc hacc
    simp only [List.foldl_cons]
    refine ih _ ?_
    intro m hm
    rcases List.mem_append.mp hm with hm | hm
    · exact hacc m hm
    · exact processFaces_ok sqrtQ attrib _ emptySub [] emptySub_inv (by simp) m hm

/-- C9: every submesh produced by a successful `load_model` satisfies: every
index is strictly below the vertex count, and equal vertices within the
submesh are stored once (`Nodup` — so any two references to an equal vertex
necessarily share the single index of its unique occurrence). -/
theorem c9_load_model_submesh_invariants (sqrtQ : ℚ → ℚ) (fileExists : Bool)
    (parsed : Option ObjData) (m : MeshRec)
    (hm : m ∈ (load_model sqrtQ fileExists parsed).1.meshes) :
    (∀ i ∈ m.indices, i < m.vertices.length) ∧ m.vertices.Nodup := by
  cases fileExists with
  | false => simp [load_model] at hm
  | true =>
    cases parsed with
    | none => simp [load_model] at hm
    | some obj =>
      have := foldl_shapes_ok sqrtQ obj.attrib obj.shapes [] (by simp) m
        (by simpa [load_model] using hm)
      exact this

/-- A tiny concrete parse result for the loader invariants: two triangular
faces sharing an edge (corners `A` and `C` appear in both), so the
deduplication path is exercised. -/
def witnessObj : ObjData :=
  { attrib :=
      { vertices := [0, 0, 0, 1, 0, 0, 0, 1, 0, 1, 1, 0]
        normals := [0, 0, 1, 0, 0, 1, 0, 0, 1, 0, 0, 1]
        texcoords := [0, 0, 1, 0, 0, 1, 1, 1] }
    shapes :=
      [{ faces := [[⟨0, 0, 0⟩, ⟨1, 1, 1⟩, ⟨2, 2, 2⟩],
                   [⟨0, 0, 0⟩, ⟨2, 2, 2⟩, ⟨3, 3, 3⟩]]
         material_ids := [0, 0] }] }

theorem c9_load_model_submesh_invariants_witness :
    (∀ i ∈ ((load_model id true (some witnessObj)).1.meshes.getD 0 default).indices,
        i < ((load_model id true (some witnessObj)).1.meshes.getD 0 default).vertices.length) ∧
    ((load_model id true (some witnessObj)).1.meshes.getD 0 default).vertices.Nodup :=
  c9_load_model_submesh_invariants id true (some witnessObj) _ (by
    refine List.getElem?_mem (?_ :
      (load_model id true (some witnessObj)).1.meshes[0]? = some _)
    rw [List.getD_eq_getElem?_getD]
    rfl)

/-! ## The camera orientation update (main.cpp lines 243-272; claim C3)

The pointer-drag handler decomposes `camera.transform` with
`glm::decompose`, discards the rotation (and the skew/perspective outputs),
builds a fresh rotation from `(pitch, yaw, 0)` Euler angles, and recomposes
`translate ∘ rotate ∘ scale`.  The relevant glm functions
(`glm::decompose`, `glm::translate`, `glm::scale`, `glm::mat4_cast`,
`glm::quat(vec3)`) are external library code; they are embedded below from
GLM's reference implementation, over exact reals (the claim's
"within floating-point tolerance" is settled by exact preservation in the
real-number model).  glm's `epsilonEqual` guards are idealized as exact
zero tests.  Matrices are column-major as in glm: `c0 … c3` are columns. -/

structure Vec3R where
  x : ℝ
  y : ℝ
  z : ℝ

structure Vec4R where
  x : ℝ
  y : ℝ
  z : ℝ
  w : ℝ

structure QuatR where
  w : ℝ
  x : ℝ
  y : ℝ
  z : ℝ

structure Mat4R where
  c0 : Vec4R
  c1 : Vec4R
  c2 : Vec4R
  c3 : Vec4R

def smul3 (a : ℝ) (v : Vec3R) : Vec3R := ⟨a * v.x, a * v.y, a * v.z⟩

def dot3R (a b : Vec3R) : ℝ := a.x * b.x + a.y * b.y + a.z * b.z

def cross3R (a b : Vec3R) : Vec3R :=
  ⟨a.y * b.z - a.z * b.y, a.z * b.x - a.x * b.z, a.x * b.y - a.y * b.x⟩

/-- `glm::length`. -/
noncomputable def vlen (v : Vec3R) : ℝ := Real.sqrt (dot3R v v)

/-- glm `detail::scale(v, desiredLength) = v * desiredLength / length(v)`. -/
noncomputable def detailScale (v : Vec3R) (d : ℝ) : Vec3R :=
  ⟨v.x * d / vlen v, v.y * d / vlen v, v.z * d / vlen v⟩

/-- glm `detail::combine(a, b, ascl, bscl) = a * ascl + b * bscl`. -/
def combine (a b : Vec3R) (ascl bscl : ℝ) : Vec3R :=
  ⟨a.x * ascl + b.x * bscl, a.y * ascl + b.y * bscl, a.z * ascl + b.z * bscl⟩

def withW (v : Vec3R) (w : ℝ) : Vec4R := ⟨v.x, v.y, v.z, w⟩

def upper3 (v : Vec4R) : Vec3R := ⟨v.x, v.y, v.z⟩

def v4smul (a : ℝ) (v : Vec4R) : Vec4R := ⟨a * v.x, a * v.y, a * v.z, a * v.w⟩

def v4add (u v : Vec4R) : Vec4R := ⟨u.x + v.x, u.y + v.y, u.z + v.z, u.w + v.w⟩

/-- `m * v` for a column vector (glm column-major). -/
def mulVec (m : Mat4R) (v : Vec4R) : Vec4R :=
  v4add (v4smul v.x m.c0) (v4add (v4smul v.y m.c1) (v4add (v4smul v.z m.c2) (v4smul v.w m.c3)))

def matMul (m n : Mat4R) : Mat4R :=
  ⟨mulVec m n.c0, mulVec m n.c1, mulVec m n.c2, mulVec m n.c3⟩

def mat4id : Mat4R :=
  ⟨⟨1, 0, 0, 0⟩, ⟨0, 1, 0, 0⟩, ⟨0, 0, 1, 0⟩, ⟨0, 0, 0, 1⟩⟩

/-- `glm::translate(m, v)`: copy `m`, column 3 becomes
`m[0]*v.x + m[1]*v.y + m[2]*v.z + m[3]`. -/
def glmTranslate (m : Mat4R) (v : Vec3R) : Mat4R :=
  { m with c3 := v4add (v4smul v.x m.c0) (v4add (v4smul v.y m.c1) (v4add (v4smul v.z m.c2) m.c3)) }

/-- `glm::scale(m, v)`: columns 0..2 scaled componentwise, column 3 kept. -/
def glmScale (m : Mat4R) (v : Vec3R) : Mat4R :=
  ⟨v4smul v.x m.c0, v4smul v.y m.c1, v4smul v.z m.c2, m.c3⟩

/-- Column 0 of glm `mat3_cast(q)`. -/
def qcol0 (q : QuatR) : Vec3R :=
  ⟨1 - 2 * (q.y * q.y + q.z * q.z), 2 * (q.x * q.y + q.w * q.z), 2 * (q.x * q.z - q.w * q.y)⟩

/-- Column 1 of glm `mat3_cast(q)`. -/
def qcol1 (q : QuatR) : Vec3R :=
  ⟨2 * (q.x * q.y - q.w * q.z), 1 - 2 * (q.x * q.x + q.z * q.z), 2 * (q.y * q.z + q.w * q.x)⟩

/-- Column 2 of glm `mat3_cast(q)`. -/
def qcol2 (q : QuatR) : Vec3R :=
  ⟨2 * (q.x * q.z + q.w * q.y), 2 * (q.y * q.z - q.w * q.x), 1 - 2 * (q.x * q.x + q.y * q.y)⟩

/-- `glm::mat4_cast(q)`. -/
def mat4_cast (q : QuatR) : Mat4R :=
  ⟨withW (qcol0 q) 0, withW (qcol1 q) 0, withW (qcol2 q) 0, ⟨0, 0, 0, 1⟩⟩

/-- `glm::quat(vec3 eulerAngle)`: half-angle construction. -/
noncomputable def quatFromEuler (e : Vec3R) : QuatR :=
  let cx := Real.cos (e.x / 2)
  let cy := Real.cos (e.y / 2)
  let cz := Real.cos (e.z / 2)
  let sx := Real.sin (e.x / 2)
  let sy := Real.sin (e.y / 2)
  let sz := Real.sin (e.z / 2)
  ⟨cx * cy * cz + sx * sy * sz,
   sx * cy * cz - cx * sy * sz,
   cx * sy * cz + sx * cy * sz,
   cx * cy * sz - sx * sy * cz⟩

/-- `glm::radians`. -/
noncomputable def radians (deg : ℝ) : ℝ := deg * (Real.pi / 180)

/-- Every matrix entry divided by a scalar (the `LocalMatrix[i][j] /=
LocalMatrix[3][3]` normalization of `glm::decompose`). -/
noncomputable def matDivScalar (m : Mat4R) (a : ℝ) : Mat4R :=
  ⟨⟨m.c0.x / a, m.c0.y / a, m.c0.z / a, m.c0.w / a⟩,
   ⟨m.c1.x / a, m.c1.y / a, m.c1.z / a, m.c1.w / a⟩,
   ⟨m.c2.x / a, m.c2.y / a, m.c2.z / a, m.c2.w / a⟩,
   ⟨m.c3.x / a, m.c3.y / a, m.c3.z / a, m.c3.w / a⟩⟩

/-- Determinant of the upper-left 3×3 block (equals glm's
`determinant(PerspectiveMatrix)`, whose bottom row is `(0,0,0,1)`). -/
def det3 (m : Mat4R) : ℝ :=
  dot3R (upper3 m.c0) (cross3R (upper3 m.c1) (upper3 m.c2))

/-- The scale/shear/translation extraction of `glm::decompose`
(matrix_decompose.inl) on the already-normalized matrix, producing
`(scale, translation, skew)`.  The perspective isolation only clears the
`w` components of columns 0..2, which none of these three outputs read, so
it is omitted; the orientation output is computed by glm but discarded by
`mouse_callback` (main.cpp line 266 overwrites it), so it is not modelled. -/
noncomputable def decomposeCore (L : Mat4R) : Vec3R × Vec3R × Vec3R :=
  let translation : Vec3R := ⟨L.c3.x, L.c3.y, L.c3.z⟩
  let r0 := upper3 L.c0
  let r1 := upper3 L.c1
  let r2 := upper3 L.c2
  let sx := vlen r0
  let R0 := detailScale r0 1
  let skz0 := dot3R R0 r1
  let R1a := combine r1 R0 1 (-skz0)
  let sy := vlen R1a
  let R1 := detailScale R1a 1
  let skz := skz0 / sy
  let sky0 := dot3R R0 r2
  let R2a := combine r2 R0 1 (-sky0)
  let skx0 := dot3R R1 R2a
  let R2b := combine R2a R1 1 (-skx0)
  let sz := vlen R2b
  let R2 := detailScale R2b 1
  let sky := sky0 / sz
  let skx := skx0 / sz
  let pdum := cross3R R1 R2
  if dot3R R0 pdum < 0 then
    (⟨-sx, -sy, -sz⟩, translation, ⟨skx, sky, skz⟩)
  else
    (⟨sx, sy, sz⟩, translation, ⟨skx, sky, skz⟩)

/-- `glm::decompose`, restricted to the `(scale, translation, skew)`
outputs that `mouse_callback` can consume.  `none` models the early
`return false` paths (zero `m[3][3]`, singular upper 3×3); glm's epsilon
comparisons are idealized as exact zero tests. -/
noncomputable def decomposeTS (m : Mat4R) : Option (Vec3R × Vec3R × Vec3R) :=
  if m.c3.w = 0 then none
  else
    let L := matDivScalar m m.c3.w
    if det3 L = 0 then none
    else some (decomposeCore L)

/-- main.cpp lines 269-271: `translate(I, t) * mat4_cast(q)`, then
`glm::scale` by `s`. -/
noncomputable def recomposeTRS (t : Vec3R) (q : QuatR) (s : Vec3R) : Mat4R :=
  glmScale (matMul (glmTranslate mat4id t) (mat4_cast q)) s

/-- main.cpp lines 253-271: the orientation update applied to the camera
transform, for (already clamped) pitch/yaw in degrees.  The `none` branch
stands for the undefined outputs glm's failed `decompose` leaves behind
(the code ignores the returned bool); the claims only concern successful
decompositions. -/
noncomputable def mouseRotationUpdate (transform : Mat4R) (pitch yaw : ℝ) : Mat4R :=
  match decomposeTS transform with
  | some (s, t, _) =>
      recomposeTRS t (quatFromEuler ⟨radians pitch, radians yaw, 0⟩) s
  | none => transform

/-! ### Vector and quaternion algebra lemmas for the decomposition proof -/

theorem smul3_one (v : Vec3R) : smul3 1 v = v := by
  cases v
  simp [smul3]

theorem dot3R_smul_left (a : ℝ) (v w : Vec3R) :
    dot3R (smul3 a v) w = a * dot3R v w := by
  unfold dot3R smul3
  ring

theorem dot3R_smul_right (a : ℝ) (v w : Vec3R) :
    dot3R v (smul3 a w) = a * dot3R v w := by
  unfold dot3R smul3
  ring

theorem dot3R_smul_smul (a b : ℝ) (v w : Vec3R) :
    dot3R (smul3 a v) (smul3 b w) = a * b * dot3R v w := by
  unfold dot3R smul3
  ring

theorem cross3R_smul_smul (a b : ℝ) (v w : Vec3R) :
    cross3R (smul3 a v) (smul3 b w) = smul3 (a * b) (cross3R v w) := by
  unfold cross3R smul3
  congr 1 <;> ring

theorem combine_cancel (v w : Vec3R) : combine v w 1 (-(0 : ℝ)) = v := by
  cases v
  unfold combine
  congr 1 <;> ring

theorem vlen_smul_unit_pos {a : ℝ} (v : Vec3R) (ha : 0 < a)
    (hv : dot3R v v = 1) : vlen (smul3 a v) = a := by
  unfold vlen
  rw [dot3R_smul_smul, hv, mul_one]
  rw [show a * a = a ^ 2 by ring]
  exact Real.sqrt_sq ha.le

theorem vlen_smul_unit_neg {a : ℝ} (v : Vec3R) (ha : a < 0)
    (hv : dot3R v v = 1) : vlen (smul3 a v) = -a := by
  unfold vlen
  rw [dot3R_smul_smul, hv, mul_one]
  rw [show a * a = a ^ 2 by ring]
  rw [Real.sqrt_sq_eq_abs]
  exact abs_of_neg ha

theorem scale_div_pos (a u : ℝ) (hne : a ≠ 0) : a * u * 1 / a = u := by
  rw [mul_one, mul_comm a u, mul_div_assoc, div_self hne, mul_one]

theorem scale_div_neg (a u : ℝ) (hne : a ≠ 0) : a * u * 1 / -a = -1 * u := by
  rw [mul_one, div_neg, mul_comm a u, mul_div_assoc, div_self hne, mul_one]
  ring

theorem detailScale_smul_unit_pos {a : ℝ} (v : Vec3R) (ha : 0 < a)
    (hv : dot3R v v = 1) : detailScale (smul3 a v) 1 = v := by
  have hl := vlen_smul_unit_pos v ha hv
  have hne : a ≠ 0 := ha.ne'
  cases v with
  | mk vx vy vz =>
    unfold detailScale
    rw [hl]
    simp only [smul3]
    congr 1 <;> exact scale_div_pos a _ hne

theorem detailScale_smul_unit_neg {a : ℝ} (v : Vec3R) (ha : a < 0)
    (hv : dot3R v v = 1) : detailScale (smul3 a v) 1 = smul3 (-1) v := by
  have hl := vlen_smul_unit_neg v ha hv
  have hne : a ≠ 0 := ha.ne
  cases v with
  | mk vx vy vz =>
    unfold detailScale
    rw [hl]
    simp only [smul3]
    congr 1 <;> exact scale_div_neg a _ hne

theorem vlen_nonneg (v : Vec3R) : 0 ≤ vlen v := Real.sqrt_nonneg _

/-- Abbreviation for the squared norm of a quaternion. -/
def qnormSq (q : QuatR) : ℝ := q.w ^ 2 + q.x ^ 2 + q.y ^ 2 + q.z ^ 2

theorem qcol_dot00 (q : QuatR) (hq : qnormSq q = 1) :
    dot3R (qcol0 q) (qcol0 q) = 1 := by
  unfold qnormSq at hq
  unfold dot3R qcol0
  linear_combination (4 * (q.y ^ 2 + q.z ^ 2)) * hq

theorem qcol_dot11 (q : QuatR) (hq : qnormSq q = 1) :
    dot3R (qcol1 q) (qcol1 q) = 1 := by
  unfold qnormSq at hq
  unfold dot3R qcol1
  linear_combination (4 * (q.x ^ 2 + q.z ^ 2)) * hq

theorem qcol_dot22 (q : QuatR) (hq : qnormSq q = 1) :
    dot3R (qcol2 q) (qcol2 q) = 1 := by
  unfold qnormSq at hq
  unfold dot3R qcol2
  linear_combination (4 * (q.x ^ 2 + q.y ^ 2)) * hq

theorem qcol_dot01 (q : QuatR) (hq : qnormSq q = 1) :
    dot3R (qcol0 q) (qcol1 q) = 0 := by
  unfold qnormSq at hq
  unfold dot3R qcol0 qcol1
  linear_combination (-(4 * q.x * q.y)) * hq

theorem qcol_dot02 (q : QuatR) (hq : qnormSq q = 1) :
    dot3R (qcol0 q) (qcol2 q) = 0 := by
  unfold qnormSq at hq
  unfold dot3R qcol0 qcol2
  linear_combination (-(4 * q.x * q.z)) * hq

theorem qcol_dot12 (q : QuatR) (hq : qnormSq q = 1) :
    dot3R (qcol1 q) (qcol2 q) = 0 := by
  unfold qnormSq at hq
  unfold dot3R qcol1 qcol2
  linear_combination (-(4 * q.y * q.z)) * hq

theorem qcol_cross12 (q : QuatR) (hq : qnormSq q = 1) :
    cross3R (qcol1 q) (qcol2 q) = qcol0 q := by
  unfold qnormSq at hq
  unfold cross3R qcol0 qcol1 qcol2
  congr 1
  · linear_combination (4 * q.x ^ 2) * hq
  · linear_combination (4 * q.x * q.y) * hq
  · linear_combination (4 * q.x * q.z) * hq

theorem quatFromEuler_normSq (e : Vec3R) : qnormSq (quatFromEuler e) = 1 := by
  unfold qnormSq quatFromEuler
  have hx := Real.sin_sq_add_cos_sq (e.x / 2)
  have hy := Real.sin_sq_add_cos_sq (e.y / 2)
  have hz := Real.sin_sq_add_cos_sq (e.z / 2)
  dsimp only
  linear_combination ((Real.sin (e.y / 2) ^ 2 + Real.cos (e.y / 2) ^ 2)
      * (Real.sin (e.z / 2) ^ 2 + Real.cos (e.z / 2) ^ 2)) * hx
    + (Real.sin (e.z / 2) ^ 2 + Real.cos (e.z / 2) ^ 2) * hy
    + hz

/-! ### Computing the decomposition of a recomposed transform -/

theorem matDivScalar_one (m : Mat4R) : matDivScalar m 1 = m := by
  cases m with
  | mk a b c d =>
    cases a; cases b; cases c; cases d
    simp [matDivScalar]

theorem upper3_withW (v : Vec3R) (w : ℝ) : upper3 (withW v w) = v := by
  cases v
  rfl

/-- `translate(I, t) * mat4_cast(q)` then `scale` by `s`, written out:
column `i < 3` is `s_i` times the rotation column, column 3 is `(t, 1)`. -/
theorem recomposeTRS_explicit (t : Vec3R) (q : QuatR) (s : Vec3R) :
    recomposeTRS t q s
      = ⟨withW (smul3 s.x (qcol0 q)) 0, withW (smul3 s.y (qcol1 q)) 0,
         withW (smul3 s.z (qcol2 q)) 0, withW t 1⟩ := by
  unfold recomposeTRS glmScale matMul mulVec glmTranslate mat4id mat4_cast
  simp only [v4add, v4smul, withW, smul3]
  congr 1 <;> congr 1 <;> ring

theorem det3_cols (t u1 u2 u3 : Vec3R) (a b c : ℝ) :
    det3 ⟨withW (smul3 a u1) 0, withW (smul3 b u2) 0, withW (smul3 c u3) 0, withW t 1⟩
      = a * (b * c) * dot3R u1 (cross3R u2 u3) := by
  unfold det3
  rw [upper3_withW, upper3_withW, upper3_withW]
  rw [cross3R_smul_smul, dot3R_smul_smul]

theorem decomposeCore_orthoCols_pos (t u1 u2 u3 : Vec3R) (a b c : ℝ)
    (h11 : dot3R u1 u1 = 1) (h22 : dot3R u2 u2 = 1) (h33 : dot3R u3 u3 = 1)
    (h12 : dot3R u1 u2 = 0) (h13 : dot3R u1 u3 = 0) (h23 : dot3R u2 u3 = 0)
    (hcross : cross3R u2 u3 = u1)
    (ha : 0 < a) (hb : 0 < b) (hc : 0 < c) :
    decomposeCore ⟨withW (smul3 a u1) 0, withW (smul3 b u2) 0,
        withW (smul3 c u3) 0, withW t 1⟩
      = (⟨a, b, c⟩, t, ⟨0, 0, 0⟩) := by
  unfold decomposeCore
  rw [show (Mat4R.mk (withW (smul3 a u1) 0) (withW (smul3 b u2) 0)
      (withW (smul3 c u3) 0) (withW t 1)).c0 = withW (smul3 a u1) 0 from rfl]
  rw [show (Mat4R.mk (withW (smul3 a u1) 0) (withW (smul3 b u2) 0)
      (withW (smul3 c u3) 0) (withW t 1)).c1 = withW (smul3 b u2) 0 from rfl]
  rw [show (Mat4R.mk (withW (smul3 a u1) 0) (withW (smul3 b u2) 0)
      (withW (smul3 c u3) 0) (withW t 1)).c2 = withW (smul3 c u3) 0 from rfl]
  rw [show (Mat4R.mk (withW (smul3 a u1) 0) (withW (smul3 b u2) 0)
      (withW (smul3 c u3) 0) (withW t 1)).c3 = withW t 1 from rfl]
  rw [upper3_withW, upper3_withW, upper3_withW]
  dsimp only [withW]
  rw [detailScale_smul_unit_pos u1 ha h11]
  rw [vlen_smul_unit_pos u1 ha h11]
  rw [dot3R_smul_right b u1 u2, h12, mul_zero]
  rw [combine_cancel]
  rw [detailScale_smul_unit_pos u2 hb h22]
  rw [vlen_smul_unit_pos u2 hb h22]
  rw [dot3R_smul_right c u1 u3, h13, mul_zero]
  rw [combine_cancel]
  rw [dot3R_smul_right c u2 u3, h23, mul_zero]
  rw [combine_cancel]
  rw [detailScale_smul_unit_pos u3 hc h33]
  rw [vlen_smul_unit_pos u3 hc h33]
  rw [hcross, h11]
  rw [if_neg (by norm_num : ¬((1 : ℝ) < 0))]
  rw [zero_div, zero_div]

theorem decomposeCore_orthoCols_neg (t u1 u2 u3 : Vec3R) (a b c : ℝ)
    (h11 : dot3R u1 u1 = 1) (h22 : dot3R u2 u2 = 1) (h33 : dot3R u3 u3 = 1)
    (h12 : dot3R u1 u2 = 0) (h13 : dot3R u1 u3 = 0) (h23 : dot3R u2 u3 = 0)
    (hcross : cross3R u2 u3 = u1)
    (ha : a < 0) (hb : b < 0) (hc : c < 0) :
    decomposeCore ⟨withW (smul3 a u1) 0, withW (smul3 b u2) 0,
        withW (smul3 c u3) 0, withW t 1⟩
      = (⟨a, b, c⟩, t, ⟨0, 0, 0⟩) := by
  unfold decomposeCore
  rw [show (Mat4R.mk (withW (smul3 a u1) 0) (withW (smul3 b u2) 0)
      (withW (smul3 c u3) 0) (withW t 1)).c0 = withW (smul3 a u1) 0 from rfl]
  rw [show (Mat4R.mk (withW (smul3 a u1) 0) (withW (smul3 b u2) 0)
      (withW (smul3 c u3) 0) (withW t 1)).c1 = withW (smul3 b u2) 0 from rfl]
  rw [show (Mat4R.mk (withW (smul3 a u1) 0) (withW (smul3 b u2) 0)
      (withW (smul3 c u3) 0) (withW t 1)).c2 = withW (smul3 c u3) 0 from rfl]
  rw [show (Mat4R.mk (withW (smul3 a u1) 0) (withW (smul3 b u2) 0)
      (withW (smul3 c u3) 0) (withW t 1)).c3 = withW t 1 from rfl]
  rw [upper3_withW, upper3_withW, upper3_withW]
  dsimp only [withW]
  rw [detailScale_smul_unit_neg u1 ha h11]
  rw [vlen_smul_unit_neg u1 ha h11]
  rw [dot3R_smul_smul (-1) b u1 u2, h12, mul_zero]
  rw [combine_cancel]
  rw [detailScale_smul_unit_neg u2 hb h22]
  rw [vlen_smul_unit_neg u2 hb h22]
  rw [dot3R_smul_smul (-1) c u1 u3, h13, mul_zero]
  rw [combine_cancel]
  rw [dot3R_smul_smul (-1) c u2 u3, h23, mul_zero]
  rw [combine_cancel]
  rw [detailScale_smul_unit_neg u3 hc h33]
  rw [vlen_smul_unit_neg u3 hc h33]
  rw [cross3R_smul_smul (-1) (-1) u2 u3, hcross]
  rw [show ((-1 : ℝ)) * (-1) = 1 from by norm_num, smul3_one]
  rw [dot3R_smul_left (-1) u1 u1, h11, mul_one]
  rw [if_pos (by norm_num : ((-1 : ℝ)) < 0)]
  rw [zero_div, zero_div]
  rw [neg_neg, neg_neg, neg_neg]

theorem decomposeTS_orthoCols (t u1 u2 u3 : Vec3R) (a b c : ℝ)
    (h11 : dot3R u1 u1 = 1) (h22 : dot3R u2 u2 = 1) (h33 : dot3R u3 u3 = 1)
    (h12 : dot3R u1 u2 = 0) (h13 : dot3R u1 u3 = 0) (h23 : dot3R u2 u3 = 0)
    (hcross : cross3R u2 u3 = u1)
    (hs : (0 < a ∧ 0 < b ∧ 0 < c) ∨ (a < 0 ∧ b < 0 ∧ c < 0)) :
    decomposeTS ⟨withW (smul3 a u1) 0, withW (smul3 b u2) 0,
        withW (smul3 c u3) 0, withW t 1⟩
      = some (⟨a, b, c⟩, t, ⟨0, 0, 0⟩) := by
  have habc : a * (b * c) ≠ 0 := by
    rcases hs with ⟨ha, hb, hc⟩ | ⟨ha, hb, hc⟩
    · exact (mul_pos ha (mul_pos hb hc)).ne'
    · exact (mul_neg_of_neg_of_pos ha (mul_pos_of_neg_of_neg hb hc)).ne
  unfold decomposeTS
  have hw : (Mat4R.mk (withW (smul3 a u1) 0) (withW (smul3 b u2) 0)
      (withW (smul3 c u3) 0) (withW t 1)).c3.w = 1 := rfl
  rw [hw]
  rw [if_neg one_ne_zero]
  dsimp only
  rw [matDivScalar_one]
  rw [det3_cols]
  rw [hcross, h11, mul_one]
  rw [if_neg habc]
  rcases hs with ⟨ha, hb, hc⟩ | ⟨ha, hb, hc⟩
  · rw [decomposeCore_orthoCols_pos t u1 u2 u3 a b c h11 h22 h33 h12 h13 h23 hcross ha hb hc]
  · rw [decomposeCore_orthoCols_neg t u1 u2 u3 a b c h11 h22 h33 h12 h13 h23 hcross ha hb hc]

theorem decomposeTS_recomposeTRS (t : Vec3R) (q : QuatR) (s : Vec3R)
    (hq : qnormSq q = 1)
    (hs : (0 < s.x ∧ 0 < s.y ∧ 0 < s.z) ∨ (s.x < 0 ∧ s.y < 0 ∧ s.z < 0)) :
    decomposeTS (recomposeTRS t q s) = some (s, t, ⟨0, 0, 0⟩) := by
  rw [recomposeTRS_explicit]
  exact decomposeTS_orthoCols t (qcol0 q) (qcol1 q) (qcol2 q) s.x s.y s.z
    (qcol_dot00 q hq) (qcol_dot11 q hq) (qcol_dot22 q hq)
    (qcol_dot01 q hq) (qcol_dot02 q hq) (qcol_dot12 q hq)
    (qcol_cross12 q hq) hs

theorem decomposeCore_scale_sign (L : Mat4R) :
    (0 ≤ (decomposeCore L).1.x ∧ 0 ≤ (decomposeCore L).1.y ∧ 0 ≤ (decomposeCore L).1.z) ∨
    ((decomposeCore L).1.x ≤ 0 ∧ (decomposeCore L).1.y ≤ 0 ∧ (decomposeCore L).1.z ≤ 0) := by
  unfold decomposeCore
  dsimp only
  split_ifs with hflip
  · exact Or.inr ⟨neg_nonpos.mpr (vlen_nonneg _), neg_nonpos.mpr (vlen_nonneg _),
      neg_nonpos.mpr (vlen_nonneg _)⟩
  · exact Or.inl ⟨vlen_nonneg _, vlen_nonneg _, vlen_nonneg _⟩

theorem decomposeTS_scale_sign (m : Mat4R) (s t k : Vec3R)
    (h : decomposeTS m = some (s, t, k)) :
    (0 ≤ s.x ∧ 0 ≤ s.y ∧ 0 ≤ s.z) ∨ (s.x ≤ 0 ∧ s.y ≤ 0 ∧ s.z ≤ 0) := by
  unfold decomposeTS at h
  by_cases h1 : m.c3.w = 0
  · rw [if_pos h1] at h
    exact absurd h (by simp)
  · rw [if_neg h1] at h
    dsimp only at h
    by_cases h2 : det3 (matDivScalar m m.c3.w) = 0
    · rw [if_pos h2] at h
      exact absurd h (by simp)
    · rw [if_neg h2] at h
      have hd : decomposeCore (matDivScalar m m.c3.w) = (s, t, k) := Option.some.inj h
      have hsign := decomposeCore_scale_sign (matDivScalar m m.c3.w)
      rw [hd] at hsign
      exact hsign

/-- C3: for every camera transform that decomposes with zero skew (and
nonsingular scale), the pointer-drag orientation update — decompose,
discard the rotation, rebuild it from `(pitch, yaw, 0)` Euler angles,
recompose `translate ∘ rotate ∘ scale` — preserves the transform's
translation and scale components exactly (hence within any floating-point
tolerance) and leaves the skew zero: only the rotation block changes. -/
theorem c3_orientation_update_preserves_translation_scale
    (m : Mat4R) (pitch yaw : ℝ) (s t : Vec3R)
    (h : decomposeTS m = some (s, t, ⟨0, 0, 0⟩))
    (hx : s.x ≠ 0) (hy : s.y ≠ 0) (hz : s.z ≠ 0) :
    decomposeTS (mouseRotationUpdate m pitch yaw) = some (s, t, ⟨0, 0, 0⟩) := by
  have hsign := decomposeTS_scale_sign m s t ⟨0, 0, 0⟩ h
  have hq := quatFromEuler_normSq ⟨radians pitch, radians yaw, 0⟩
  have hupd : mouseRotationUpdate m pitch yaw
      = recomposeTRS t (quatFromEuler ⟨radians pitch, radians yaw, 0⟩) s := by
    unfold mouseRotationUpdate
    rw [h]
  rw [hupd]
  refine decomposeTS_recomposeTRS t _ s hq ?_
  rcases hsign with ⟨ha, hb, hc⟩ | ⟨ha, hb, hc⟩
  · exact Or.inl ⟨lt_of_le_of_ne ha (Ne.symm hx), lt_of_le_of_ne hb (Ne.symm hy),
      lt_of_le_of_ne hc (Ne.symm hz)⟩
  · exact Or.inr ⟨lt_of_le_of_ne ha hx, lt_of_le_of_ne hb hy, lt_of_le_of_ne hc hz⟩

/-- A concrete zero-skew camera transform: identity rotation columns, unit
scale, translation `(5, 6, 7)`. -/
noncomputable def wMat : Mat4R :=
  ⟨withW (smul3 1 ⟨1, 0, 0⟩) 0, withW (smul3 1 ⟨0, 1, 0⟩) 0,
   withW (smul3 1 ⟨0, 0, 1⟩) 0, withW ⟨5, 6, 7⟩ 1⟩

theorem c3_orientation_update_preserves_translation_scale_witness :
    decomposeTS (mouseRotationUpdate wMat 10 20)
      = some (⟨1, 1, 1⟩, ⟨5, 6, 7⟩, ⟨0, 0, 0⟩) := by
  have hw : decomposeTS wMat = some (⟨1, 1, 1⟩, ⟨5, 6, 7⟩, ⟨0, 0, 0⟩) :=
    decomposeTS_orthoCols ⟨5, 6, 7⟩ ⟨1, 0, 0⟩ ⟨0, 1, 0⟩ ⟨0, 0, 1⟩ 1 1 1
      (by norm_num [dot3R]) (by norm_num [dot3R]) (by norm_num [dot3R])
      (by norm_num [dot3R]) (by norm_num [dot3R]) (by norm_num [dot3R])
      (by norm_num [cross3R]) (Or.inl ⟨one_pos, one_pos, one_pos⟩)
  exact c3_orientation_update_preserves_translation_scale wMat 10 20
    ⟨1, 1, 1⟩ ⟨5, 6, 7⟩ hw one_ne_zero one_ne_zero one_ne_zero
